import Mathlib

/-!
Shallow embedding of the secure-chat relay server (src/server.py) and proofs
about its registration protocol, registry, rate limiter, crypto relay and
broadcast fan-out.  Connections (Python websocket objects) are modelled as
natural numbers; the Python `set` of clients is a duplicate-free list; the
Python dicts `client_names` and `rate_bucket` are insertion-ordered
association lists; wall-clock instants are rationals measured in seconds.
-/

namespace ChatServer

/-- Characters treated as whitespace by Python `str.strip`, modelled on the
code points up to U+00FF (ASCII whitespace, the C1 NEL and the no-break
space); every input used in this development stays in that range. -/
def pyIsSpace (c : Char) : Bool :=
  c == ' ' || c == '\t' || c == '\n' || c == '\r' ||
    c.toNat == 0x0B || c.toNat == 0x0C ||
    (0x1C ≤ c.toNat && c.toNat ≤ 0x1F) || c.toNat == 0x85 || c.toNat == 0xA0

/-- Characters accepted by Python `str.isalnum`, modelled on the code points
up to U+017F: ASCII letters and digits, the Latin-1 and Latin Extended-A
letters (excluding × U+00D7 and ÷ U+00F7), and the Latin-1 numeric and
ordinal signs. -/
def pyIsAlnum (c : Char) : Bool :=
  c.isAlphanum ||
    (0xC0 ≤ c.toNat && c.toNat ≤ 0x17F && c.toNat != 0xD7 && c.toNat != 0xF7) ||
    c.toNat == 0xAA || c.toNat == 0xB5 || c.toNat == 0xBA ||
    c.toNat == 0xB2 || c.toNat == 0xB3 || c.toNat == 0xB9 ||
    c.toNat == 0xBC || c.toNat == 0xBD || c.toNat == 0xBE

/-- Punctuation retained by `sanitize_username`: the Python literal " _-.'". -/
def symbolChars : List Char := [' ', '_', '-', '.', '\x27']

/-- Python `str.strip`: drop leading and trailing whitespace. -/
def pyStrip (s : List Char) : List Char :=
  ((s.dropWhile pyIsSpace).reverse.dropWhile pyIsSpace).reverse

/-- The character test of the comprehension in `sanitize_username`:
`ch.isalnum() or ch in " _-.'"`. -/
def allowedChar (ch : Char) : Bool := pyIsAlnum ch || symbolChars.contains ch

/-- Fallback username, the literal "Anónimo" of server.py. -/
def anonimo : List Char := "Anónimo".data

/-- server.py `sanitize_username`: strip surrounding whitespace, keep only
alphanumerics and the characters " _-.'", truncate to 32, and substitute
"Anónimo" when the input is missing/empty or filters to empty.  A Python
`None` argument (falsy, like the empty string) is modelled as `[]`. -/
def sanitize_username (name : List Char) : List Char :=
  if name = [] then anonimo
  else
    let stripped := pyStrip name
    let filtrado := stripped.filter allowedChar
    (if filtrado = [] then anonimo else filtrado).take 32

/-- server.py `MAX_PLAINTEXT_LEN`. -/
def MAX_PLAINTEXT_LEN : Nat := 4096

/-- server.py `MAX_ENCRYPTED_LEN` (8 × the plaintext cap). -/
def MAX_ENCRYPTED_LEN : Nat := 8 * MAX_PLAINTEXT_LEN

/-- server.py `RATE_WINDOW` in seconds. -/
def RATE_WINDOW : ℚ := 2

/-- server.py `RATE_MAX_MSGS`. -/
def RATE_MAX_MSGS : Nat := 10

/-- Per-connection rate-limiting state: the dict
`{"count": ..., "window_start": ...}` of server.py. -/
structure Bucket where
  count : Nat
  window_start : ℚ
deriving DecidableEq, Repr

/-- server.py `rate_limit_ok`.  The argument is the bucket currently stored
for the websocket (`rate_bucket.get(ws)`), the result is the verdict together
with the bucket as stored after the call (Python mutates it in place). -/
def rate_limit_ok (b : Option Bucket) (now : ℚ) : Bool × Bucket :=
  match b with
  | none => (true, ⟨1, now⟩)
  | some bucket =>
    if now - bucket.window_start > RATE_WINDOW then (true, ⟨1, now⟩)
    else if bucket.count ≥ RATE_MAX_MSGS then (false, bucket)
    else (true, ⟨bucket.count + 1, bucket.window_start⟩)

/-- Feed a registered connection's stored bucket through a sequence of
message arrival times, collecting the verdicts. -/
def runRate (b : Bucket) : List ℚ → List Bool × Bucket
  | [] => ([], b)
  | t :: ts =>
    let r := rate_limit_ok (some b) t
    let rest := runRate r.2 ts
    (r.1 :: rest.1, rest.2)

/-- Error text "JSON inválido en registro" of server.py. -/
def errJsonReg : List Char := "JSON inválido en registro".data

/-- Error text "Debe registrarse primero" of server.py. -/
def errMustRegister : List Char := "Debe registrarse primero".data

/-- Error text "Rate limit excedido. Intenta más tarde." of server.py. -/
def errRateLimit : List Char := "Rate limit excedido. Intenta más tarde.".data

/-- Error text "JSON inválido" of server.py. -/
def errJson : List Char := "JSON inválido".data

/-- Error text "Contenido inválido o demasiado grande" of server.py. -/
def errContenido : List Char := "Contenido inválido o demasiado grande".data

/-- Error text "Mensaje inválido" of server.py. -/
def errMensaje : List Char := "Mensaje inválido".data

/-- Error text "Tipo de mensaje no soportado" of server.py. -/
def errTipo : List Char := "Tipo de mensaje no soportado".data

/-- Fallback display name "Usuario desconocido" of `unregister_client`. -/
def unknownUser : List Char := "Usuario desconocido".data

/-- The wire string "register". -/
def registerT : List Char := "register".data

/-- The wire string "chat_message". -/
def chatMessageT : List Char := "chat_message".data

/-- Base64 form of the process-wide Fernet key.  `Fernet.generate_key()` is
random; the claims never depend on the key bytes, only on the key-delivery
event, so a fixed stand-in value is used. -/
def encryption_key_b64 : List Char := "clave".data

/-- Outbound events of server.py, with the fields the claims are about
(timestamps are omitted as no claim concerns them). -/
inductive Msg where
  | encryption_key (key : List Char)
  | user_list (users : List (List Char))
  | user_joined (username : List Char)
  | user_left (username : List Char)
  | chat_message (username : List Char) (content : List Char)
  | error (message : List Char)
deriving DecidableEq, Repr

/-- Global mutable server state: the set `clients` (duplicate-free list),
and the insertion-ordered dicts `client_names` and `rate_bucket`, with
websockets modelled as naturals. -/
structure ServerState where
  clients : List Nat
  client_names : List (Nat × List Char)
  rate_bucket : List (Nat × Bucket)
deriving DecidableEq, Repr

/-- The empty initial state of the server process. -/
def initialState : ServerState := ⟨[], [], []⟩

/-- Python `dict.get(w)`. -/
def dictGet {α : Type} (m : List (Nat × α)) (w : Nat) : Option α :=
  match m with
  | [] => none
  | (k, v) :: rest => if k = w then some v else dictGet rest w

/-- Python `dict[w] = v`: update in place, or append a new key at the end
(insertion order, as Python dicts preserve it). -/
def dictSet {α : Type} (m : List (Nat × α)) (w : Nat) (v : α) : List (Nat × α) :=
  match m with
  | [] => [(w, v)]
  | (k, x) :: rest => if k = w then (k, v) :: rest else (k, x) :: dictSet rest w v

/-- Python `dict.pop(w, None)`. -/
def dictPop {α : Type} (m : List (Nat × α)) (w : Nat) : List (Nat × α) :=
  m.filter (fun p => !(p.1 == w))

/-- Python `set.add`. -/
def setAdd (l : List Nat) (w : Nat) : List Nat :=
  if w ∈ l then l else l ++ [w]

/-- Python `set.remove`. -/
def setRemove (l : List Nat) (w : Nat) : List Nat :=
  l.filter (fun c => !(c == w))

/-- Transport send outcomes: `ok c = true` when `await c.send(...)` succeeds,
false when it raises (connection closed or write error).  A closed connection
stays closed, so the outcome depends only on the connection. -/
def allOk : Nat → Bool := fun _ => true

mutual

/-- server.py `broadcast_message`, fuel-indexed because a failed send
triggers `unregister_client`, whose `user_left` broadcast may fail again.
The `fuel` argument strictly dominates the mutual-recursion depth; the
wrappers below always supply enough of it.  The result is the final state
together with the list of (recipient, event) deliveries, in send order:
first the deliveries of the iteration over `clients` (failed sends deliver
nothing and are collected), then the deliveries of the cleanup pass that
unregisters each collected connection after the iteration has finished. -/
def broadcastF : Nat → ServerState → (Nat → Bool) → Msg → Option Nat → Bool →
    ServerState × List (Nat × Msg)
  | 0, st, _, _, _, _ => (st, [])
  | fuel + 1, st, ok, msg, excl, echo =>
    if st.clients = [] then (st, [])
    else
      let targets := st.clients.filter (fun c => echo || !(decide (some c = excl)))
      let delivered := targets.filter ok
      let disconnected := targets.filter (fun c => !(ok c))
      let r := cleanupF fuel st ok disconnected
      (r.1, delivered.map (fun c => (c, msg)) ++ r.2)

/-- The cleanup loop at the end of `broadcast_message`:
`for client in disconnected: await unregister_client(client)`. -/
def cleanupF : Nat → ServerState → (Nat → Bool) → List Nat →
    ServerState × List (Nat × Msg)
  | 0, st, _, _ => (st, [])
  | _ + 1, st, _, [] => (st, [])
  | fuel + 1, st, ok, w :: ws =>
    let r1 := unregisterF fuel st ok w
    let r2 := cleanupF fuel r1.1 ok ws
    (r2.1, r1.2 ++ r2.2)

/-- server.py `unregister_client`: when the websocket is registered, remove
it from the client set, the name map and the rate buckets, then broadcast a
`user_left` notice to everyone; otherwise do nothing. -/
def unregisterF : Nat → ServerState → (Nat → Bool) → Nat →
    ServerState × List (Nat × Msg)
  | 0, st, _, _ => (st, [])
  | fuel + 1, st, ok, w =>
    if w ∈ st.clients then
      let name := (dictGet st.client_names w).getD unknownUser
      let st' : ServerState :=
        ⟨setRemove st.clients w, dictPop st.client_names w, dictPop st.rate_bucket w⟩
      broadcastF fuel st' ok (Msg.user_left name) none true
    else (st, [])

end

/-- Fuel amply covering the recursion depth of a broadcast or unregister on
state `st` (the depth is bounded by the number of registered clients). -/
def fuelFor (st : ServerState) : Nat :=
  (st.clients.length + 1) * (st.clients.length + 3)

/-- server.py `broadcast_message` entry point. -/
def broadcast_message (st : ServerState) (ok : Nat → Bool) (msg : Msg)
    (excl : Option Nat) (echo : Bool) : ServerState × List (Nat × Msg) :=
  broadcastF (fuelFor st) st ok msg excl echo

/-- server.py `unregister_client` entry point. -/
def unregister_client (st : ServerState) (ok : Nat → Bool) (w : Nat) :
    ServerState × List (Nat × Msg) :=
  unregisterF (fuelFor st) st ok w

/-- server.py `register_client`: insert into the registry, store the name,
start the rate bucket at count 0, send the shared key to the new connection
alone, then broadcast `user_joined` with `echo_to_sender=False` but — exactly
as the source does — without passing `exclude`, so that nobody is skipped. -/
def register_client (st : ServerState) (ok : Nat → Bool) (w : Nat)
    (name : List Char) (now : ℚ) : ServerState × List (Nat × Msg) :=
  let st1 : ServerState :=
    ⟨setAdd st.clients w, dictSet st.client_names w name,
      dictSet st.rate_bucket w ⟨0, now⟩⟩
  let r := broadcastF (fuelFor st1) st1 ok (Msg.user_joined name) none false
  (r.1, (w, Msg.encryption_key encryption_key_b64) :: r.2)

/-- An inbound payload as seen after `json.loads`: malformed JSON
(`json.JSONDecodeError`), valid JSON whose top-level value is not an object
(a number, string, array, ... — on these `data.get` raises
`AttributeError`), or a JSON object whose "type", "username" and "content"
fields are each a string or absent/non-string (`none`). -/
inductive Payload where
  | malformed
  | nonObject
  | msg (mtype : Option (List Char)) (username : Option (List Char))
      (content : Option (List Char))
deriving DecidableEq, Repr

/-- Lines 184-201 of server.py: handling of the first payload received on a
fresh connection `w`.  Returns the new state, the (recipient, event) sends in
order, and whether the connection entered the registered state.  Malformed
JSON or an object with a non-"register" type produce one error event and no
registration; a valid-JSON non-object payload makes `data.get("type")` raise
`AttributeError`, which only the generic `except Exception` of
`handle_client` catches — the connection closes with no event sent at all;
otherwise the connection is registered under the sanitized username and then
receives the current user list. -/
def handle_first_message (st : ServerState) (ok : Nat → Bool) (w : Nat)
    (now : ℚ) (p : Payload) : ServerState × List (Nat × Msg) × Bool :=
  match p with
  | .malformed => (st, [(w, Msg.error errJsonReg)], false)
  | .nonObject => (st, [], false)
  | .msg mtype username _ =>
    if mtype = some registerT then
      let name := sanitize_username (username.getD [])
      let r := register_client st ok w name now
      (r.1, r.2 ++ [(w, Msg.user_list (r.1.client_names.map (fun q => q.2)))], true)
    else (st, [(w, Msg.error errMustRegister)], false)

/-- The symmetric cipher, kept opaque: `enc` takes the random nonce/IV drawn
for the call, `dec` returns `none` on any cryptographic failure (modelling
the caught exception of `decrypt_message`). -/
structure Cipher where
  enc : Nat → List Char → List Char
  dec : List Char → Option (List Char)

/-- server.py `encrypt_message` (the nonce models Fernet's random IV). -/
def encrypt_message (C : Cipher) (nonce : Nat) (message : List Char) : List Char :=
  C.enc nonce message

/-- server.py `decrypt_message`: `none` on failure instead of an exception. -/
def decrypt_message (C : Cipher) (encrypted_message : List Char) : Option (List Char) :=
  C.dec encrypted_message

/-- Lines 204-241 of server.py: handling of one payload from the registered
connection `w`.  Rate limiting runs first; then JSON validity; then, for a
"chat_message", the ciphertext checks, decryption, plaintext checks,
re-encryption under a fresh nonce and the broadcast (excluding nobody, since
`echo_to_sender=True`).  A valid-JSON non-object payload passes the rate
check and `json.loads`, then raises `AttributeError` at `data.get("type")`:
nothing is sent and the exception ends the message loop (the caller's
`finally` runs the unregistration). -/
def handle_message (C : Cipher) (nonce : Nat) (st : ServerState)
    (ok : Nat → Bool) (w : Nat) (now : ℚ) (p : Payload) :
    ServerState × List (Nat × Msg) :=
  let rl := rate_limit_ok (dictGet st.rate_bucket w) now
  let st1 : ServerState := { st with rate_bucket := dictSet st.rate_bucket w rl.2 }
  if rl.1 = false then (st1, [(w, Msg.error errRateLimit)])
  else
    match p with
    | .malformed => (st1, [(w, Msg.error errJson)])
    | .nonObject => (st1, [])
    | .msg mtype _ content =>
      if mtype = some chatMessageT then
        match content with
        | none => (st1, [(w, Msg.error errContenido)])
        | some enc =>
          if enc.length = 0 ∨ enc.length > MAX_ENCRYPTED_LEN then
            (st1, [(w, Msg.error errContenido)])
          else
            match decrypt_message C enc with
            | none => (st1, [(w, Msg.error errMensaje)])
            | some dec =>
              if dec.length = 0 ∨ dec.length > MAX_PLAINTEXT_LEN then
                (st1, [(w, Msg.error errMensaje)])
              else
                let out := encrypt_message C nonce dec
                let name := (dictGet st1.client_names w).getD ['?']
                broadcast_message st1 ok (Msg.chat_message name out) (some w) true
      else (st1, [(w, Msg.error errTipo)])

/-- A concrete cipher used to instantiate theorems: the nonce is recorded as
a leading tag character, and decryption strips any valid tag. -/
def tagCipher : Cipher where
  enc := fun n p => (if n = 0 then 'a' else 'b') :: p
  dec := fun c =>
    match c with
    | [] => none
    | t :: p => if t = 'a' || t = 'b' then some p else none

/-- Registration and disconnection events driving the registry (all transport
sends succeeding, so that disconnections happen exactly at `unreg` events). -/
inductive OpEvent where
  | reg (w : Nat) (name : List Char) (now : ℚ)
  | unreg (w : Nat)

/-- Apply one registry event. -/
def applyOp (st : ServerState) : OpEvent → ServerState
  | .reg w name now => (register_client st allOk w name now).1
  | .unreg w => (unregister_client st allOk w).1

/-- Apply a sequence of registry events in order. -/
def applyOps (st : ServerState) : List OpEvent → ServerState
  | [] => st
  | e :: es => applyOps (applyOp st e) es

/-- Whether connection `w` has a registration not yet followed by an
unregistration, given that it starts in state `init`. -/
def isActive (w : Nat) (init : Bool) : List OpEvent → Bool
  | [] => init
  | .reg v _ _ :: rest => isActive w (if v = w then true else init) rest
  | .unreg v :: rest => isActive w (if v = w then false else init) rest

/-- The state `handle_message` reaches right after the rate-limit
bookkeeping, before any further processing of the payload. -/
def rateTick (st : ServerState) (w : Nat) (now : ℚ) : ServerState :=
  { st with rate_bucket :=
      dictSet st.rate_bucket w (rate_limit_ok (dictGet st.rate_bucket w) now).2 }

/-- A transport in which the send to connection 2 fails and every other send
succeeds; used to instantiate the fan-out theorems. -/
def failTwo : Nat → Bool := fun c => !(c == 2)


/-- Updating a key and reading it back yields the new value. -/
theorem dictGet_dictSet_self {α : Type} (m : List (Nat × α)) (w : Nat) (v : α) :
    dictGet (dictSet m w v) w = some v := by
  induction m with
  | nil => simp [dictGet, dictSet]
  | cons p rest ih =>
    obtain ⟨k, x⟩ := p
    by_cases h : k = w <;> simp [dictGet, dictSet, h, ih]

/-- Updating one key leaves the other keys unchanged. -/
theorem dictGet_dictSet_ne {α : Type} (m : List (Nat × α)) (w u : Nat) (v : α)
    (h : u ≠ w) : dictGet (dictSet m w v) u = dictGet m u := by
  induction m with
  | nil => simp [dictGet, dictSet, Ne.symm h]
  | cons p rest ih =>
    obtain ⟨k, x⟩ := p
    by_cases hk : k = w
    · subst hk
      simp [dictGet, dictSet, Ne.symm h]
    · simp [dictGet, dictSet, hk, ih]

/-- Popping a key removes it. -/
theorem dictGet_dictPop_self {α : Type} (m : List (Nat × α)) (w : Nat) :
    dictGet (dictPop m w) w = none := by
  induction m with
  | nil => simp [dictGet, dictPop]
  | cons p rest ih =>
    obtain ⟨k, x⟩ := p
    by_cases h : k = w
    · simpa [dictPop, List.filter_cons, h] using ih
    · simpa [dictPop, List.filter_cons, h, dictGet] using ih

/-- Popping one key leaves the other keys unchanged. -/
theorem dictGet_dictPop_ne {α : Type} (m : List (Nat × α)) (w u : Nat)
    (h : u ≠ w) : dictGet (dictPop m w) u = dictGet m u := by
  induction m with
  | nil => simp [dictGet, dictPop]
  | cons p rest ih =>
    obtain ⟨k, x⟩ := p
    by_cases hk : k = w
    · subst hk
      simpa [dictPop, List.filter_cons, dictGet, Ne.symm h] using ih
    · by_cases hu : k = u
      · subst hu
        simp [dictPop, List.filter_cons, hk, dictGet]
      · simpa [dictPop, List.filter_cons, hk, dictGet, hu] using ih

/-- Membership in the Python set after `add`. -/
theorem mem_setAdd (l : List Nat) (w u : Nat) :
    u ∈ setAdd l w ↔ u ∈ l ∨ u = w := by
  by_cases h : w ∈ l
  · simp only [setAdd, if_pos h]
    constructor
    · exact fun hu => Or.inl hu
    · rintro (hu | rfl) <;> [exact hu; exact h]
  · simp [setAdd, if_neg h]

/-- Membership in the Python set after `remove`. -/
theorem mem_setRemove (l : List Nat) (w u : Nat) :
    u ∈ setRemove l w ↔ u ∈ l ∧ u ≠ w := by
  simp [setRemove, List.mem_filter]

/-- The cleanup loop over no disconnected clients does nothing. -/
theorem cleanupF_nil (fuel : Nat) (st : ServerState) (ok : Nat → Bool) :
    cleanupF fuel st ok [] = (st, []) := by
  cases fuel <;> rfl

/-- When every send succeeds, a broadcast leaves the state untouched and
delivers the event to exactly the non-excluded clients, in iteration order. -/
theorem broadcastF_allOk (fuel : Nat) (st : ServerState) (msg : Msg)
    (excl : Option Nat) (echo : Bool) :
    broadcastF (fuel + 1) st allOk msg excl echo =
      (st, (st.clients.filter (fun c => echo || !(decide (some c = excl)))).map
        (fun c => (c, msg))) := by
  by_cases h : st.clients = []
  · simp [broadcastF, h]
  · simp [broadcastF, h, allOk, cleanupF_nil]

/-- Broadcast, cleanup and unregister never add clients to the registry. -/
theorem clients_subset (fuel : Nat) :
    (∀ st ok msg excl echo,
      (broadcastF fuel st ok msg excl echo).1.clients ⊆ st.clients) ∧
    (∀ st ok ws, (cleanupF fuel st ok ws).1.clients ⊆ st.clients) ∧
    (∀ st ok w, (unregisterF fuel st ok w).1.clients ⊆ st.clients) := by
  induction fuel with
  | zero =>
    refine ⟨?_, ?_, ?_⟩ <;> intros <;> simp [broadcastF, cleanupF, unregisterF]
  | succ fuel ih =>
    obtain ⟨ihb, ihc, ihu⟩ := ih
    refine ⟨?_, ?_, ?_⟩
    · intro st ok msg excl echo
      by_cases h : st.clients = []
      · simp [broadcastF, h]
      · simpa [broadcastF, h] using ihc st ok _
    · intro st ok ws
      match ws with
      | [] => simp [cleanupF_nil]
      | w :: rest =>
        have h1 := ihu st ok w
        have h2 := ihc (unregisterF fuel st ok w).1 ok rest
        simpa [cleanupF] using h2.trans h1
    · intro st ok w
      by_cases h : w ∈ st.clients
      · have hb := ihb
          ⟨setRemove st.clients w, dictPop st.client_names w, dictPop st.rate_bucket w⟩
          ok (Msg.user_left ((dictGet st.client_names w).getD unknownUser)) none true
        simp only [unregisterF, if_pos h]
        refine hb.trans ?_
        intro a ha
        exact ((mem_setRemove _ _ _).1 ha).1
      · simp [unregisterF, h]

/-- The fuel supplied by the wrappers is positive. -/
theorem fuelFor_pos (st : ServerState) : 1 ≤ fuelFor st :=
  Nat.mul_pos (by omega) (by omega)

/-- The fuel supplied by the wrappers dominates the client count. -/
theorem fuelFor_ge (st : ServerState) : st.clients.length + 3 ≤ fuelFor st := by
  unfold fuelFor
  have h := Nat.le_mul_of_pos_left (st.clients.length + 3)
    (show 0 < st.clients.length + 1 by omega)
  omega

/-- Every delivery performed during a broadcast, a cleanup pass or an
unregistration goes to a connection registered when the call started, and an
unregistration never sends to the connection being removed. -/
theorem recipients_mem (fuel : Nat) :
    (∀ st ok msg excl echo r m,
      (r, m) ∈ (broadcastF fuel st ok msg excl echo).2 → r ∈ st.clients) ∧
    (∀ st ok ws r m, (r, m) ∈ (cleanupF fuel st ok ws).2 → r ∈ st.clients) ∧
    (∀ st ok w r m,
      (r, m) ∈ (unregisterF fuel st ok w).2 → r ∈ st.clients ∧ r ≠ w) := by
  induction fuel with
  | zero =>
    refine ⟨?_, ?_, ?_⟩ <;> intros <;> simp_all [broadcastF, cleanupF, unregisterF]
  | succ fuel ih =>
    obtain ⟨ihb, ihc, ihu⟩ := ih
    refine ⟨?_, ?_, ?_⟩
    · intro st ok msg excl echo r m hm
      by_cases h : st.clients = []
      · simp [broadcastF, h] at hm
      · simp only [broadcastF, if_neg h, List.mem_append] at hm
        rcases hm with h1 | h2
        · obtain ⟨c, hc, hce⟩ := List.mem_map.1 h1
          obtain ⟨rfl, rfl⟩ := Prod.mk.injEq .. ▸ hce
          exact List.mem_of_mem_filter (List.mem_of_mem_filter hc)
        · exact ihc st ok _ r m h2
    · intro st ok ws r m hm
      match ws with
      | [] => rw [cleanupF_nil] at hm; simp at hm
      | w :: rest =>
        simp only [cleanupF, List.mem_append] at hm
        rcases hm with h1 | h2
        · exact (ihu st ok w r m h1).1
        · exact (clients_subset fuel).2.2 st ok w (ihc _ ok rest r m h2)
    · intro st ok w r m hm
      by_cases h : w ∈ st.clients
      · simp only [unregisterF, if_pos h] at hm
        have := ihb _ ok _ none true r m hm
        exact (mem_setRemove _ _ _).1 this
      · simp [unregisterF, if_neg h] at hm

/-- Unregistering `w` leaves a registry without `w`. -/
theorem unregisterF_not_mem (fuel : Nat) (st : ServerState) (ok : Nat → Bool)
    (w : Nat) : w ∉ (unregisterF (fuel + 1) st ok w).1.clients := by
  by_cases h : w ∈ st.clients
  · simp only [unregisterF, if_pos h]
    intro hmem
    have hsub := (clients_subset fuel).1 _ ok
      (Msg.user_left ((dictGet st.client_names w).getD unknownUser)) none true hmem
    exact absurd ((mem_setRemove _ _ _).1 hsub).2 (by simp)
  · simp only [unregisterF, if_neg h]
    exact h

/-- A cleanup pass over a list containing `w`, run with enough fuel, removes
`w` from the registry. -/
theorem cleanup_removes (ws : List Nat) : ∀ fuel st ok w, w ∈ ws →
    ws.length + 1 ≤ fuel → w ∉ (cleanupF fuel st ok ws).1.clients := by
  induction ws with
  | nil => simp
  | cons a rest ih =>
    intro fuel st ok w hw hfuel
    obtain ⟨fuel, rfl⟩ : ∃ f, fuel = f + 1 := ⟨fuel - 1, by omega⟩
    simp only [cleanupF]
    rcases List.mem_cons.1 hw with rfl | hw
    · have hfe : 1 ≤ fuel := by simp at hfuel; omega
      obtain ⟨f2, rfl⟩ : ∃ f2, fuel = f2 + 1 := ⟨fuel - 1, by omega⟩
      intro hmem
      exact unregisterF_not_mem f2 st ok w
        ((clients_subset (f2 + 1)).2.1 _ ok rest hmem)
    · exact ih fuel _ ok w hw (by simp at hfuel ⊢; omega)

/-- A registered connection whose send fails during a broadcast that targets
it is no longer registered when the broadcast returns: the fan-out collects
it and routes it through the unregister path. -/
theorem broadcast_removes_failing (st : ServerState) (ok : Nat → Bool)
    (msg : Msg) (excl : Option Nat) (echo : Bool) (c : Nat)
    (hc : c ∈ st.clients) (htar : (echo || !(decide (some c = excl))) = true)
    (hok : ok c = false) :
    c ∉ (broadcast_message st ok msg excl echo).1.clients := by
  unfold broadcast_message
  obtain ⟨f, hf⟩ : ∃ f, fuelFor st = f + 1 :=
    ⟨fuelFor st - 1, by have := fuelFor_pos st; omega⟩
  rw [hf]
  have hne : st.clients ≠ [] := by
    intro h
    rw [h] at hc
    exact absurd hc (List.not_mem_nil c)
  simp only [broadcastF, if_neg hne]
  have hdisc : c ∈ (st.clients.filter
      (fun c => echo || !(decide (some c = excl)))).filter (fun c => !(ok c)) :=
    List.mem_filter.2 ⟨List.mem_filter.2 ⟨hc, htar⟩, by simp [hok]⟩
  apply cleanup_removes _ f _ ok c hdisc
  have h1 := List.length_filter_le (fun c => !(ok c))
    (st.clients.filter (fun c => echo || !(decide (some c = excl))))
  have h2 := List.length_filter_le (fun c => echo || !(decide (some c = excl)))
    st.clients
  have h3 := fuelFor_ge st
  omega

/-- Unregistering a connection that is not registered is a no-op. -/
theorem unregisterF_skip (fuel : Nat) (st : ServerState) (ok : Nat → Bool)
    (w : Nat) (h : w ∉ st.clients) : unregisterF fuel st ok w = (st, []) := by
  cases fuel with
  | zero => rfl
  | succ f => simp [unregisterF, h]

/-- After `unregister_client`, the connection is gone from the client set. -/
theorem unregister_client_not_mem (st : ServerState) (ok : Nat → Bool)
    (w : Nat) : w ∉ (unregister_client st ok w).1.clients := by
  unfold unregister_client
  obtain ⟨f, hf⟩ : ∃ f, fuelFor st = f + 1 :=
    ⟨fuelFor st - 1, by have := fuelFor_pos st; omega⟩
  rw [hf]
  exact unregisterF_not_mem f st ok w

/-- When every send succeeds, `unregister_client` on a registered connection
removes it from all three structures and delivers the `user_left` notice to
exactly the connections registered after the removal. -/
theorem unregister_client_allOk (st : ServerState) (w : Nat)
    (h : w ∈ st.clients) :
    unregister_client st allOk w =
      (⟨setRemove st.clients w, dictPop st.client_names w, dictPop st.rate_bucket w⟩,
        (setRemove st.clients w).map
          (fun c => (c, Msg.user_left ((dictGet st.client_names w).getD unknownUser)))) := by
  unfold unregister_client
  obtain ⟨f, hf⟩ : ∃ f, fuelFor st = f + 2 :=
    ⟨fuelFor st - 2, by have := fuelFor_ge st; omega⟩
  rw [hf]
  simp only [unregisterF, if_pos h]
  rw [broadcastF_allOk]
  simp

/-- When every send succeeds, `register_client` adds the connection to all
three structures, delivers the key to it, and broadcasts the `user_joined`
notice to every registered connection — the new one included, because the
source passes `echo_to_sender=False` without an `exclude` argument. -/
theorem register_client_allOk (st : ServerState) (w : Nat) (name : List Char)
    (now : ℚ) :
    register_client st allOk w name now =
      (⟨setAdd st.clients w, dictSet st.client_names w name,
          dictSet st.rate_bucket w ⟨0, now⟩⟩,
        (w, Msg.encryption_key encryption_key_b64) ::
          (setAdd st.clients w).map (fun c => (c, Msg.user_joined name))) := by
  simp only [register_client]
  obtain ⟨f, hf⟩ : ∃ f, fuelFor (⟨setAdd st.clients w, dictSet st.client_names w name,
      dictSet st.rate_bucket w ⟨0, now⟩⟩ : ServerState) = f + 1 :=
    ⟨fuelFor (⟨setAdd st.clients w, dictSet st.client_names w name,
        dictSet st.rate_bucket w ⟨0, now⟩⟩ : ServerState) - 1,
      by have := fuelFor_pos (⟨setAdd st.clients w, dictSet st.client_names w name,
        dictSet st.rate_bucket w ⟨0, now⟩⟩ : ServerState); omega⟩
  rw [hf, broadcastF_allOk]
  simp

/-- A non-excluded connection whose transport accepts the send receives the
broadcast event, whatever happens to the other connections. -/
theorem broadcast_delivers (st : ServerState) (ok : Nat → Bool) (msg : Msg)
    (excl : Option Nat) (echo : Bool) (c : Nat) (hc : c ∈ st.clients)
    (htar : (echo || !(decide (some c = excl))) = true) (hok : ok c = true) :
    (c, msg) ∈ (broadcast_message st ok msg excl echo).2 := by
  unfold broadcast_message
  obtain ⟨f, hf⟩ : ∃ f, fuelFor st = f + 1 :=
    ⟨fuelFor st - 1, by have := fuelFor_pos st; omega⟩
  rw [hf]
  have hne : st.clients ≠ [] := by
    intro h
    rw [h] at hc
    exact absurd hc (List.not_mem_nil c)
  simp only [broadcastF, if_neg hne, List.mem_append]
  left
  exact List.mem_map.2
    ⟨c, List.mem_filter.2 ⟨List.mem_filter.2 ⟨hc, htar⟩, hok⟩, rfl⟩

/-- Wrapper form of `broadcastF_allOk`. -/
theorem broadcast_message_allOk (st : ServerState) (msg : Msg)
    (excl : Option Nat) (echo : Bool) :
    broadcast_message st allOk msg excl echo =
      (st, (st.clients.filter (fun c => echo || !(decide (some c = excl)))).map
        (fun c => (c, msg))) := by
  unfold broadcast_message
  obtain ⟨f, hf⟩ : ∃ f, fuelFor st = f + 1 :=
    ⟨fuelFor st - 1, by have := fuelFor_pos st; omega⟩
  rw [hf]
  exact broadcastF_allOk f st msg excl echo

/-- Registry membership after a registration event: exactly the registering
connection is added. -/
theorem applyOp_clients_reg (st : ServerState) (v : Nat) (name : List Char)
    (now : ℚ) (u : Nat) :
    u ∈ (applyOp st (.reg v name now)).clients ↔ u ∈ st.clients ∨ u = v := by
  simp [applyOp, register_client_allOk, mem_setAdd]

/-- Registry membership after an unregistration event: exactly the departing
connection is removed. -/
theorem applyOp_clients_unreg (st : ServerState) (v : Nat) (u : Nat) :
    u ∈ (applyOp st (.unreg v)).clients ↔ u ∈ st.clients ∧ u ≠ v := by
  by_cases h : v ∈ st.clients
  · simp [applyOp, unregister_client_allOk st v h, mem_setRemove]
  · have hnop : unregister_client st allOk v = (st, []) :=
      unregisterF_skip _ _ _ v h
    simp only [applyOp, hnop]
    constructor
    · exact fun hu => ⟨hu, fun he => h (he ▸ hu)⟩
    · exact fun hu => hu.1

/-- Registry membership after an event sequence is governed by the
register/unregister history of the connection. -/
theorem applyOps_clients_iff (ops : List OpEvent) : ∀ (st : ServerState) (u : Nat),
    u ∈ (applyOps st ops).clients ↔
      isActive u (decide (u ∈ st.clients)) ops = true := by
  induction ops with
  | nil => intro st u; simp [applyOps, isActive]
  | cons e rest ih =>
    intro st u
    have hstep : isActive u (decide (u ∈ st.clients)) (e :: rest) =
        isActive u (decide (u ∈ (applyOp st e).clients)) rest := by
      cases e with
      | reg v name now =>
        have hb : (if v = u then true else decide (u ∈ st.clients)) =
            decide (u ∈ (applyOp st (.reg v name now)).clients) := by
          by_cases hv : v = u
          · subst hv
            simp [applyOp_clients_reg]
          · simp [applyOp_clients_reg, hv, show ¬u = v from fun h => hv h.symm]
        simp only [isActive]
        rw [hb]
      | unreg v =>
        have hb : (if v = u then false else decide (u ∈ st.clients)) =
            decide (u ∈ (applyOp st (.unreg v)).clients) := by
          by_cases hv : v = u
          · subst hv
            simp [applyOp_clients_unreg]
          · simp [applyOp_clients_unreg, hv, show ¬u = v from fun h => hv h.symm]
        simp only [isActive]
        rw [hb]
    rw [show applyOps st (e :: rest) = applyOps (applyOp st e) rest from rfl,
      hstep]
    exact ih (applyOp st e) u

/-- One event preserves the alignment of the client set with the domains of
the name map and the rate-bucket map. -/
theorem applyOp_domains (st : ServerState)
    (h1 : ∀ u, (dictGet st.client_names u).isSome = true ↔ u ∈ st.clients)
    (h2 : ∀ u, (dictGet st.rate_bucket u).isSome = true ↔ u ∈ st.clients)
    (e : OpEvent) :
    (∀ u, (dictGet (applyOp st e).client_names u).isSome = true ↔
      u ∈ (applyOp st e).clients) ∧
    (∀ u, (dictGet (applyOp st e).rate_bucket u).isSome = true ↔
      u ∈ (applyOp st e).clients) := by
  cases e with
  | reg v name now =>
    constructor
    · intro u
      simp only [applyOp, register_client_allOk]
      by_cases hv : u = v
      · subst hv
        simp [dictGet_dictSet_self, mem_setAdd]
      · rw [dictGet_dictSet_ne _ _ _ _ hv]
        simp [mem_setAdd, hv, h1 u]
    · intro u
      simp only [applyOp, register_client_allOk]
      by_cases hv : u = v
      · subst hv
        simp [dictGet_dictSet_self, mem_setAdd]
      · rw [dictGet_dictSet_ne _ _ _ _ hv]
        simp [mem_setAdd, hv, h2 u]
  | unreg v =>
    by_cases h : v ∈ st.clients
    · constructor
      · intro u
        simp only [applyOp, unregister_client_allOk st v h]
        by_cases hv : u = v
        · subst hv
          simp [dictGet_dictPop_self, mem_setRemove]
        · rw [dictGet_dictPop_ne _ _ _ hv]
          simp [mem_setRemove, hv, h1 u]
      · intro u
        simp only [applyOp, unregister_client_allOk st v h]
        by_cases hv : u = v
        · subst hv
          simp [dictGet_dictPop_self, mem_setRemove]
        · rw [dictGet_dictPop_ne _ _ _ hv]
          simp [mem_setRemove, hv, h2 u]
    · have hnop : unregister_client st allOk v = (st, []) :=
        unregisterF_skip _ _ _ v h
      simp only [applyOp, hnop]
      exact ⟨h1, h2⟩

/-- Event sequences preserve the alignment of the three registry structures. -/
theorem applyOps_domains (ops : List OpEvent) : ∀ (st : ServerState),
    (∀ u, (dictGet st.client_names u).isSome = true ↔ u ∈ st.clients) →
    (∀ u, (dictGet st.rate_bucket u).isSome = true ↔ u ∈ st.clients) →
    ∀ u, ((dictGet (applyOps st ops).client_names u).isSome = true ↔
      u ∈ (applyOps st ops).clients) ∧
      ((dictGet (applyOps st ops).rate_bucket u).isSome = true ↔
        u ∈ (applyOps st ops).clients) := by
  induction ops with
  | nil => exact fun st h1 h2 u => ⟨h1 u, h2 u⟩
  | cons e rest ih =>
    intro st h1 h2 u
    have hd := applyOp_domains st h1 h2 e
    exact ih (applyOp st e) hd.1 hd.2 u

/-- Sanitized names never exceed 32 characters. -/
theorem sanitize_length_le (s : List Char) : (sanitize_username s).length ≤ 32 := by
  unfold sanitize_username
  by_cases h : s = []
  · simp [h, anonimo]
  · simp only [if_neg h]
    split
    · decide
    · rw [List.length_take]
      exact min_le_left _ _

/-- Sanitized names are never empty. -/
theorem sanitize_ne_nil (s : List Char) : sanitize_username s ≠ [] := by
  unfold sanitize_username
  by_cases h : s = []
  · simp [h]
    decide
  · simp only [if_neg h]
    split
    · decide
    · rename_i hne
      intro htake
      rcases List.take_eq_nil_iff.1 htake with h32 | hnil
      · simp at h32
      · exact hne hnil

/-- Every character of a sanitized name is in the allowed classes. -/
theorem sanitize_mem_allowed (s : List Char) (c : Char)
    (hc : c ∈ sanitize_username s) : allowedChar c = true := by
  have hanon : ∀ x ∈ anonimo, allowedChar x = true := by decide
  unfold sanitize_username at hc
  by_cases h : s = []
  · rw [if_pos h] at hc
    exact hanon c hc
  · rw [if_neg h] at hc
    have hc' := (List.take_sublist 32 _).subset hc
    split at hc'
    · exact hanon c hc'
    · exact (List.mem_filter.1 hc').2

/-- When the filtered, stripped input is empty, the sanitizer substitutes
the fallback name. -/
theorem sanitize_empty_fallback (s : List Char)
    (h : (pyStrip s).filter allowedChar = []) : sanitize_username s = anonimo := by
  unfold sanitize_username
  by_cases hs : s = []
  · rw [if_pos hs]
  · rw [if_neg hs]
    simp only [h, if_pos rfl]
    decide

/-- A nonempty word of at most 32 allowed characters with no surrounding
whitespace is a fixed point of the sanitizer. -/
theorem sanitize_fixed (r : List Char) (hne : r ≠ []) (hstrip : pyStrip r = r)
    (hall : ∀ c ∈ r, allowedChar c = true) (hlen : r.length ≤ 32) :
    sanitize_username r = r := by
  unfold sanitize_username
  rw [if_neg hne, hstrip]
  show List.take 32 (if List.filter allowedChar r = [] then anonimo
    else List.filter allowedChar r) = r
  rw [List.filter_eq_self.2 hall, if_neg hne]
  exact List.take_of_length_le hlen

/-- The name stored in the registry by a successful registration is the
sanitizer applied to the raw submitted username (a missing username is the
empty input). -/
theorem stored_name_eq (st : ServerState) (w : Nat) (u : Option (List Char))
    (cf : Option (List Char)) (now : ℚ) :
    dictGet (handle_first_message st allOk w now
        (.msg (some registerT) u cf)).1.client_names w =
      some (sanitize_username (u.getD [])) := by
  simp only [handle_first_message, if_pos rfl, register_client_allOk]
  exact dictGet_dictSet_self _ _ _

/-- Claim C6: for every input string, sanitize_username yields a name of at
most 32 characters drawn from letters, digits, space, underscore, hyphen,
period and apostrophe, never empty, substituting the literal "Anónimo" when
stripping and filtering leave nothing. -/
theorem c6_sanitize_username_bounds (s : List Char) :
    (sanitize_username s).length ≤ 32 ∧
    (sanitize_username s).all allowedChar = true ∧
    sanitize_username s ≠ [] ∧
    ((pyStrip s).filter allowedChar = [] → sanitize_username s = anonimo) :=
  ⟨sanitize_length_le s,
    List.all_eq_true.2 (fun c hc => sanitize_mem_allowed s c hc),
    sanitize_ne_nil s,
    sanitize_empty_fallback s⟩

/-- Claim C6 witness: the bounds evaluated on a name of control characters. -/
theorem c6_sanitize_username_bounds_witness :
    (sanitize_username "###".data).length ≤ 32 ∧
    (sanitize_username "###".data).all allowedChar = true ∧
    sanitize_username "###".data ≠ [] ∧
    ((pyStrip "###".data).filter allowedChar = [] →
      sanitize_username "###".data = anonimo) :=
  c6_sanitize_username_bounds "###".data

/-- Claim C2 counterexample: sanitizing can produce a name with surrounding
spaces (kept by the filter) that a second sanitization strips, so the
sanitizer is not idempotent: on "? a ?" it yields " a ", which re-sanitizes
to "a". -/
theorem c2_sanitize_not_idempotent :
    sanitize_username (sanitize_username "? a ?".data) ≠
      sanitize_username "? a ?".data := by decide

/-- Claim C2 as amended: the stored name equals the sanitizer applied to the
raw input, and the sanitizer is idempotent on every input whose sanitized
form carries no surrounding whitespace. -/
theorem c2_sanitize_idempotent_on_stripped :
    (∀ s : List Char, pyStrip (sanitize_username s) = sanitize_username s →
      sanitize_username (sanitize_username s) = sanitize_username s) ∧
    (∀ (st : ServerState) (w : Nat) (u cf : Option (List Char)) (now : ℚ),
      dictGet (handle_first_message st allOk w now
          (.msg (some registerT) u cf)).1.client_names w =
        some (sanitize_username (u.getD []))) := by
  constructor
  · intro s hstrip
    exact sanitize_fixed _ (sanitize_ne_nil s) hstrip
      (fun c hc => sanitize_mem_allowed s c hc) (sanitize_length_le s)
  · exact fun st w u cf now => stored_name_eq st w u cf now

/-- Claim C2 witness: idempotence and storage evaluated on the name "Bob"
registered by connection 2 while connection 1 is online. -/
theorem c2_sanitize_idempotent_on_stripped_witness :
    sanitize_username (sanitize_username "Bob".data) =
        sanitize_username "Bob".data ∧
    dictGet (handle_first_message ⟨[1], [(1, "Ana".data)], [(1, ⟨0, 0⟩)]⟩
        allOk 2 0 (.msg (some registerT) (some "Bob".data) none)).1.client_names 2 =
      some (sanitize_username "Bob".data) :=
  ⟨c2_sanitize_idempotent_on_stripped.1 "Bob".data (by decide),
    c2_sanitize_idempotent_on_stripped.2 ⟨[1], [(1, "Ana".data)], [(1, ⟨0, 0⟩)]⟩
      2 (some "Bob".data) none 0⟩

/-- Claim C1, evaluated at the failing input: with connection 1 registered as
"Ana" and every send succeeding, connection 2 registering as "Bob" produces
the event sequence key-to-2, user_joined-to-1, user_joined-to-2,
user_list-to-2.  The user_joined broadcast therefore reaches the registering
connection itself (the `exclude` argument is never passed, so
`echo_to_sender=False` skips nobody), and the user_list is sent only after
the user_joined broadcast, contradicting the claimed order. -/
theorem c1_registration_event_order :
    handle_first_message ⟨[1], [(1, "Ana".data)], [(1, ⟨0, 0⟩)]⟩ allOk 2 0
        (.msg (some registerT) (some "Bob".data) none) =
      (⟨[1, 2], [(1, "Ana".data), (2, "Bob".data)], [(1, ⟨0, 0⟩), (2, ⟨0, 0⟩)]⟩,
        [(2, Msg.encryption_key encryption_key_b64),
         (1, Msg.user_joined "Bob".data), (2, Msg.user_joined "Bob".data),
         (2, Msg.user_list ["Ana".data, "Bob".data])], true) := by
  decide

/-- Claim C3: the rate limiter is a fixed window per connection — within a
window (now - window_start ≤ RATE_WINDOW) a message is admitted and counted
exactly when fewer than RATE_MAX_MSGS have been counted; once the window has
elapsed (now - window_start > RATE_WINDOW) the next message is admitted and
the bucket atomically resets to count 1 and window_start now; with the
registration bucket (count 0) at time 0, ten messages at t=0.1 are allowed,
an eleventh at t=0.2 is rejected, and one at t=2.1 is allowed and resets
the bucket; a rejection sends exactly one error event to the sender, drops
the message, and leaves the client set (the connection) untouched. -/
theorem c3_rate_limiter :
    (∀ (b : Bucket) (now : ℚ), b.count < RATE_MAX_MSGS →
      now - b.window_start ≤ RATE_WINDOW →
      rate_limit_ok (some b) now = (true, ⟨b.count + 1, b.window_start⟩)) ∧
    (∀ (b : Bucket) (now : ℚ), RATE_MAX_MSGS ≤ b.count →
      now - b.window_start ≤ RATE_WINDOW →
      rate_limit_ok (some b) now = (false, b)) ∧
    (∀ (b : Bucket) (now : ℚ), RATE_WINDOW < now - b.window_start →
      rate_limit_ok (some b) now = (true, ⟨1, now⟩)) ∧
    (runRate ⟨0, 0⟩ (List.replicate 10 (mkRat 1 10) ++ [mkRat 2 10, mkRat 21 10]) =
      (List.replicate 10 true ++ [false, true], ⟨1, mkRat 21 10⟩)) ∧
    (∀ (C : Cipher) (nonce : Nat) (st : ServerState) (ok : Nat → Bool)
      (w : Nat) (now : ℚ) (p : Payload),
      (rate_limit_ok (dictGet st.rate_bucket w) now).1 = false →
      handle_message C nonce st ok w now p =
        (rateTick st w now, [(w, Msg.error errRateLimit)]) ∧
      (rateTick st w now).clients = st.clients) := by
  refine ⟨?_, ?_, ?_, ?_, ?_⟩
  · intro b now h1 h2
    simp [rate_limit_ok, not_lt.2 h2, Nat.not_le.2 h1]
  · intro b now h1 h2
    simp [rate_limit_ok, not_lt.2 h2, h1]
  · intro b now h
    simp [rate_limit_ok, h]
  · norm_num [runRate, rate_limit_ok, RATE_WINDOW, RATE_MAX_MSGS, List.replicate]
  · intro C nonce st ok w now p h
    exact ⟨by simp [handle_message, h, rateTick], rfl⟩

/-- Claim C3 witness: the window arithmetic and the rejection path evaluated
on concrete buckets and instants. -/
theorem c3_rate_limiter_witness :
    rate_limit_ok (some ⟨3, 0⟩) 1 = (true, ⟨4, 0⟩) ∧
    rate_limit_ok (some ⟨10, 0⟩) 1 = (false, ⟨10, 0⟩) ∧
    rate_limit_ok (some ⟨10, 0⟩) 3 = (true, ⟨1, 3⟩) ∧
    handle_message tagCipher 0 ⟨[1], [], [(1, ⟨10, 0⟩)]⟩ allOk 1 1
        Payload.malformed =
      (rateTick ⟨[1], [], [(1, ⟨10, 0⟩)]⟩ 1 1, [(1, Msg.error errRateLimit)]) :=
  ⟨c3_rate_limiter.1 ⟨3, 0⟩ 1 (by decide) (by norm_num [RATE_WINDOW]),
   c3_rate_limiter.2.1 ⟨10, 0⟩ 1 (by decide) (by norm_num [RATE_WINDOW]),
   c3_rate_limiter.2.2.1 ⟨10, 0⟩ 3 (by norm_num [RATE_WINDOW]),
   (c3_rate_limiter.2.2.2.2 tagCipher 0 ⟨[1], [], [(1, ⟨10, 0⟩)]⟩ allOk 1 1
      Payload.malformed
      (by norm_num [rate_limit_ok, dictGet, RATE_WINDOW, RATE_MAX_MSGS])).1⟩

/-- Claim C4: an inbound chat_message whose content is absent/not a string,
empty, or longer than MAX_ENCRYPTED_LEN is rejected with exactly one error
event to the sender before decryption is ever attempted (the outcome does
not depend on the cipher), and a ciphertext that fails to decrypt, or
decrypts to an empty or over-4096-unit plaintext, is rejected with exactly
one error event to the sender; in every such case the message is dropped
and the broadcast fan-out is never invoked (the only delivery is the single
error event, and the registry is untouched). -/
theorem c4_chat_validation :
    ∀ (C C' : Cipher) (n n' : Nat) (st : ServerState) (ok : Nat → Bool)
      (w : Nat) (now : ℚ) (u enc? : Option (List Char)),
      (rate_limit_ok (dictGet st.rate_bucket w) now).1 = true →
      ((enc? = none ∨ ∃ e, enc? = some e ∧
          (e.length = 0 ∨ e.length > MAX_ENCRYPTED_LEN)) →
        handle_message C n st ok w now (.msg (some chatMessageT) u enc?) =
          (rateTick st w now, [(w, Msg.error errContenido)]) ∧
        handle_message C n st ok w now (.msg (some chatMessageT) u enc?) =
          handle_message C' n' st ok w now (.msg (some chatMessageT) u enc?)) ∧
      (∀ e, enc? = some e → e.length ≠ 0 → e.length ≤ MAX_ENCRYPTED_LEN →
        (C.dec e = none ∨ ∃ d, C.dec e = some d ∧
          (d.length = 0 ∨ d.length > MAX_PLAINTEXT_LEN)) →
        handle_message C n st ok w now (.msg (some chatMessageT) u enc?) =
          (rateTick st w now, [(w, Msg.error errMensaje)])) := by
  intro C C' n n' st ok w now u enc? hrate
  constructor
  · intro hbad
    rcases hbad with rfl | ⟨e, rfl, hlen⟩
    · exact ⟨by simp [handle_message, hrate, rateTick], by simp [handle_message, hrate]⟩
    · rcases hlen with h0 | hbig
      · exact ⟨by simp [handle_message, hrate, rateTick, h0],
          by simp [handle_message, hrate, h0]⟩
      · exact ⟨by simp [handle_message, hrate, rateTick, hbig],
          by simp [handle_message, hrate, hbig]⟩
  · rintro e rfl h0 hle hdec
    rcases hdec with hnone | ⟨d, hd, hbad⟩
    · simp [handle_message, hrate, rateTick, h0, Nat.not_lt.2 hle,
        decrypt_message, hnone]
    · rcases hbad with hd0 | hdbig
      · simp [handle_message, hrate, rateTick, h0, Nat.not_lt.2 hle,
          decrypt_message, hd, hd0]
      · simp [handle_message, hrate, rateTick, h0, Nat.not_lt.2 hle,
          decrypt_message, hd, hdbig]

/-- Claim C4 witness: a missing content field and an undecryptable content
evaluated on a registered connection with a fresh rate bucket. -/
theorem c4_chat_validation_witness :
    handle_message tagCipher 0 ⟨[1], [(1, "Ana".data)], []⟩ allOk 1 0
        (.msg (some chatMessageT) none none) =
      (rateTick ⟨[1], [(1, "Ana".data)], []⟩ 1 0,
        [(1, Msg.error errContenido)]) ∧
    handle_message tagCipher 0 ⟨[1], [(1, "Ana".data)], []⟩ allOk 1 0
        (.msg (some chatMessageT) none (some ['x'])) =
      (rateTick ⟨[1], [(1, "Ana".data)], []⟩ 1 0,
        [(1, Msg.error errMensaje)]) :=
  ⟨((c4_chat_validation tagCipher tagCipher 0 0 ⟨[1], [(1, "Ana".data)], []⟩
      allOk 1 0 none none rfl).1 (Or.inl rfl)).1,
   (c4_chat_validation tagCipher tagCipher 0 0 ⟨[1], [(1, "Ana".data)], []⟩
      allOk 1 0 none (some ['x']) rfl).2 ['x'] rfl (by decide) (by decide)
      (Or.inl (by decide))⟩

/-- Claim C5: a connection appears in the client set after any sequence of
registration/disconnection events exactly when it has registered and not yet
unregistered; the name map and rate-bucket map have exactly the client set
as domain; and `unregister_client` is idempotent — a second cleanup attempt
on the same connection is a no-op. -/
theorem c5_registry_invariant :
    (∀ (st : ServerState) (ok : Nat → Bool) (w : Nat),
      unregister_client (unregister_client st ok w).1 ok w =
        ((unregister_client st ok w).1, [])) ∧
    (∀ (ops : List OpEvent) (u : Nat),
      u ∈ (applyOps initialState ops).clients ↔ isActive u false ops = true) ∧
    (∀ (ops : List OpEvent) (u : Nat),
      ((dictGet (applyOps initialState ops).client_names u).isSome = true ↔
        u ∈ (applyOps initialState ops).clients) ∧
      ((dictGet (applyOps initialState ops).rate_bucket u).isSome = true ↔
        u ∈ (applyOps initialState ops).clients)) := by
  refine ⟨?_, ?_, ?_⟩
  · intro st ok w
    exact unregisterF_skip _ _ ok w (unregister_client_not_mem st ok w)
  · intro ops u
    have h := applyOps_clients_iff ops initialState u
    simpa [initialState] using h
  · intro ops u
    exact applyOps_domains ops initialState
      (fun u => by simp [initialState, dictGet])
      (fun u => by simp [initialState, dictGet]) u

/-- Claim C7: a chat message that passes validation is re-encrypted under
the shared key with a fresh nonce, and the broadcast carries that fresh
ciphertext to every registered connection (sender included, as
`echo_to_sender=True`); assuming the cipher's decrypt-of-encrypt round trip,
every recipient decrypts the broadcast ciphertext to exactly the plaintext
the sender originally encrypted, even when the fresh ciphertext differs
byte-for-byte from the submitted one. -/
theorem c7_relay_fresh_encryption :
    ∀ (C : Cipher) (nonce n0 : Nat) (pt : List Char) (st : ServerState)
      (w : Nat) (now : ℚ) (u : Option (List Char)),
      (∀ n p, C.dec (C.enc n p) = some p) →
      0 < pt.length → pt.length ≤ MAX_PLAINTEXT_LEN →
      0 < (C.enc n0 pt).length → (C.enc n0 pt).length ≤ MAX_ENCRYPTED_LEN →
      (rate_limit_ok (dictGet st.rate_bucket w) now).1 = true →
      handle_message C nonce st allOk w now
          (.msg (some chatMessageT) u (some (C.enc n0 pt))) =
        (rateTick st w now, st.clients.map (fun c =>
          (c, Msg.chat_message ((dictGet st.client_names w).getD ['?'])
            (C.enc nonce pt)))) ∧
      C.dec (C.enc nonce pt) = some pt := by
  intro C nonce n0 pt st w now u hround hp0 hple hc0 hcle hrate
  constructor
  · have h1 : (C.enc n0 pt).length ≠ 0 := Nat.pos_iff_ne_zero.mp hc0
    have h2 : ¬(C.enc n0 pt).length > MAX_ENCRYPTED_LEN := Nat.not_lt.2 hcle
    have h3 : pt.length ≠ 0 := Nat.pos_iff_ne_zero.mp hp0
    have h4 : ¬pt.length > MAX_PLAINTEXT_LEN := Nat.not_lt.2 hple
    simp [handle_message, hrate, decrypt_message, hround n0 pt, h1, h2, h3, h4,
      broadcast_message_allOk, rateTick, encrypt_message]
  · exact hround nonce pt

/-- Claim C7 witness: with the tag cipher, "hola" submitted by "Ana" under
nonce 0 is re-encrypted under nonce 1 and delivered to both connections; the
fresh ciphertext decrypts to "hola" yet differs from the submitted bytes. -/
theorem c7_relay_fresh_encryption_witness :
    handle_message tagCipher 1 ⟨[1, 2], [(1, "Ana".data)], []⟩ allOk 1 0
        (.msg (some chatMessageT) none (some ('a' :: "hola".data))) =
      (rateTick ⟨[1, 2], [(1, "Ana".data)], []⟩ 1 0,
        [(1, Msg.chat_message "Ana".data ('b' :: "hola".data)),
         (2, Msg.chat_message "Ana".data ('b' :: "hola".data))]) ∧
    tagCipher.dec ('b' :: "hola".data) = some "hola".data ∧
    ('b' :: "hola".data) ≠ ('a' :: "hola".data) := by
  have h := c7_relay_fresh_encryption tagCipher 1 0 "hola".data
    ⟨[1, 2], [(1, "Ana".data)], []⟩ 1 0 none
    (by intro n p; by_cases hn : n = 0 <;> simp [tagCipher, hn])
    (by decide) (by decide) (by decide) (by decide) rfl
  exact ⟨h.1.trans (by decide), h.2, by decide⟩

/-- Claim C8: during a broadcast, every targeted connection whose transport
accepts the send receives the event no matter how many other sends fail,
and every targeted connection whose send fails is collected during the
iteration and unregistered by the cleanup pass, leaving the registry without
it when the broadcast returns. -/
theorem c8_fanout_fault_isolation :
    ∀ (st : ServerState) (ok : Nat → Bool) (msg : Msg) (excl : Option Nat)
      (echo : Bool) (c : Nat), c ∈ st.clients →
      (echo || !(decide (some c = excl))) = true →
      (ok c = true → (c, msg) ∈ (broadcast_message st ok msg excl echo).2) ∧
      (ok c = false → c ∉ (broadcast_message st ok msg excl echo).1.clients) :=
  fun st ok msg excl echo c hc htar =>
    ⟨fun hok => broadcast_delivers st ok msg excl echo c hc htar hok,
     fun hok => broadcast_removes_failing st ok msg excl echo c hc htar hok⟩

/-- Claim C8 witness: among three registered connections with the send to
connection 2 failing, connections 1 and 3 still receive the event and
connection 2 is removed from the registry by the cleanup pass. -/
theorem c8_fanout_fault_isolation_witness :
    (1, Msg.user_joined "X".data) ∈
      (broadcast_message ⟨[1, 2, 3], [], []⟩ failTwo
        (Msg.user_joined "X".data) none true).2 ∧
    (3, Msg.user_joined "X".data) ∈
      (broadcast_message ⟨[1, 2, 3], [], []⟩ failTwo
        (Msg.user_joined "X".data) none true).2 ∧
    2 ∉ (broadcast_message ⟨[1, 2, 3], [], []⟩ failTwo
        (Msg.user_joined "X".data) none true).1.clients :=
  ⟨(c8_fanout_fault_isolation ⟨[1, 2, 3], [], []⟩ failTwo
      (Msg.user_joined "X".data) none true 1 (by decide) (by decide)).1 rfl,
   (c8_fanout_fault_isolation ⟨[1, 2, 3], [], []⟩ failTwo
      (Msg.user_joined "X".data) none true 3 (by decide) (by decide)).1 rfl,
   (c8_fanout_fault_isolation ⟨[1, 2, 3], [], []⟩ failTwo
      (Msg.user_joined "X".data) none true 2 (by decide) (by decide)).2 rfl⟩

/-- Claim C9 counterexample: a fresh connection whose first payload is valid
JSON but not an object (such as the text "5") is closed with no event sent
at all — `data.get("type")` raises `AttributeError`, which lands in the
generic `except Exception` of `handle_client` — refuting the claim that
every non-registration first payload receives one explanatory error event. -/
theorem c9_nonobject_counterexample :
    handle_first_message initialState allOk 1 0 Payload.nonObject =
      (initialState, [], false) := by decide

/-- Claim C9 as amended: a first payload that is malformed JSON, or a JSON
object whose type is not "register", yields exactly one explanatory error
event to that connection; a first payload of valid JSON that is not an
object yields no event at all (the AttributeError is swallowed by the
generic exception handler and the connection just closes); in every such
case the server state is unchanged — the connection never enters the
registry, no user_joined broadcast occurs — and the disconnect cleanup is a
no-op. -/
theorem c9_first_payload_guard (st : ServerState) (ok : Nat → Bool) (w : Nat)
    (now : ℚ) (p : Payload) (hw : w ∉ st.clients) :
    (p = Payload.malformed →
      handle_first_message st ok w now p =
        (st, [(w, Msg.error errJsonReg)], false)) ∧
    (∀ mt u cf, p = Payload.msg mt u cf → mt ≠ some registerT →
      handle_first_message st ok w now p =
        (st, [(w, Msg.error errMustRegister)], false)) ∧
    (p = Payload.nonObject →
      handle_first_message st ok w now p = (st, [], false)) ∧
    unregister_client st ok w = (st, []) := by
  refine ⟨?_, ?_, ?_, unregisterF_skip _ _ ok w hw⟩
  · rintro rfl
    rfl
  · rintro mt u cf rfl hmt
    simp [handle_first_message, hmt]
  · rintro rfl
    rfl

/-- Claim C9 witness: a fresh connection whose first payload is a
chat_message object is refused with one error event; one whose first payload
is a bare JSON number is closed silently; neither is ever registered. -/
theorem c9_first_payload_guard_witness :
    handle_first_message initialState allOk 1 0
        (.msg (some chatMessageT) none none) =
      (initialState, [(1, Msg.error errMustRegister)], false) ∧
    handle_first_message initialState allOk 1 0 Payload.nonObject =
      (initialState, [], false) ∧
    unregister_client initialState allOk 1 = (initialState, []) :=
  ⟨(c9_first_payload_guard initialState allOk 1 0
      (.msg (some chatMessageT) none none) (by decide)).2.1
      (some chatMessageT) none none rfl (by decide),
   (c9_first_payload_guard initialState allOk 1 0 Payload.nonObject
      (by decide)).2.2.1 rfl,
   (c9_first_payload_guard initialState allOk 1 0 Payload.nonObject
      (by decide)).2.2.2⟩

/-- Claim C10: unregistering a registered connection removes it from the
registry before the user_left notice is broadcast — whatever the transport
does, no delivery of that broadcast goes to the departing connection, and
when all sends succeed the notice reaches exactly the connections still
registered after the removal. -/
theorem c10_user_left_after_removal (st : ServerState) (w : Nat)
    (h : w ∈ st.clients) :
    (∀ (ok : Nat → Bool) (r : Nat) (m : Msg),
      (r, m) ∈ (unregister_client st ok w).2 → r ∈ st.clients ∧ r ≠ w) ∧
    unregister_client st allOk w =
      (⟨setRemove st.clients w, dictPop st.client_names w,
          dictPop st.rate_bucket w⟩,
        (setRemove st.clients w).map (fun c =>
          (c, Msg.user_left ((dictGet st.client_names w).getD unknownUser)))) :=
  ⟨fun ok r m hm => (recipients_mem (fuelFor st)).2.2 st ok w r m hm,
   unregister_client_allOk st w h⟩

/-- Claim C10 witness: connection 2 ("Bob") disconnecting from a two-client
registry produces exactly one user_left delivery, to connection 1. -/
theorem c10_user_left_after_removal_witness :
    unregister_client ⟨[1, 2], [(1, "Ana".data), (2, "Bob".data)],
        [(1, ⟨0, 0⟩), (2, ⟨0, 0⟩)]⟩ allOk 2 =
      (⟨[1], [(1, "Ana".data)], [(1, ⟨0, 0⟩)]⟩,
        [(1, Msg.user_left "Bob".data)]) :=
  ((c10_user_left_after_removal ⟨[1, 2], [(1, "Ana".data), (2, "Bob".data)],
      [(1, ⟨0, 0⟩), (2, ⟨0, 0⟩)]⟩ 2 (by decide)).2).trans (by decide)

end ChatServer
